import Mathlib

/-!
# VeloLift — verification of the rep-detection / fatigue engine and frontend

Shallow embedding of the VeloLift repository:

* the Python backend (`velocitytracker/`: rep tracker, fatigue detector,
  session manager) is not part of the checked-in sources, only its
  documentation (`SYSTEM_OVERVIEW.md`) and its callers are; those components
  are modelled from the specification text and marked as such;
* the React frontend (`VelocityView.jsx`, `db.js`) is embedded directly from
  the source: state updates become pure functions on an explicit state record,
  JavaScript numbers become rationals, timers become an explicit optional
  deadline that an `advanceTo` step may fire.
-/

namespace VeloLift

/-- Bar-motion phase of the rep state machine (`IDLE`, `DESCENDING`,
`ASCENDING` in the backend). -/
inductive Phase where
  | idle
  | ascending
  | descending
  deriving DecidableEq, Repr

/-- Modelled from the spec: tracker parameter `minPhaseDuration = 0.15 s`
(`velocitytracker/backend/fatigue_detector.py` is not under the checked-in
sources). A phase transition is only accepted once the incoming phase has
held for at least this long. -/
def minPhaseDuration : ℚ := 3 / 20

/-- Modelled from the spec: the rep tracker's cycle state — current phase,
which non-idle phases have occurred (with sufficient duration) since the last
return to Idle, and the number of completed reps. -/
structure TrackerState where
  phase : Phase
  sawAscending : Bool
  sawDescending : Bool
  repCount : Nat
  deriving DecidableEq, Repr

/-- Tracker state at the start of a set: Idle, no phases seen, zero reps. -/
def initTracker : TrackerState :=
  { phase := Phase.idle, sawAscending := false, sawDescending := false, repCount := 0 }

/-- A maximal run of samples whose directional condition classifies one
candidate phase, together with how long the condition held. -/
structure PhaseSegment where
  phase : Phase
  duration : ℚ
  deriving DecidableEq, Repr

/-- Modelled from the spec: one debounced transition step of the rep tracker
(the backend `VelocityRepTracker` is not under the checked-in sources).
A candidate phase that does not hold for `minPhaseDuration` is discarded with
no state change; an accepted return to Idle completes a rep exactly when both
non-idle phases occurred (in either order) since the last Idle. -/
def trackerStep (s : TrackerState) (seg : PhaseSegment) : TrackerState :=
  if seg.duration < minPhaseDuration then s
  else if seg.phase = s.phase then s
  else
    match seg.phase with
    | Phase.idle =>
        { phase := Phase.idle, sawAscending := false, sawDescending := false,
          repCount := if s.sawAscending && s.sawDescending then s.repCount + 1 else s.repCount }
    | Phase.ascending => { s with phase := Phase.ascending, sawAscending := true }
    | Phase.descending => { s with phase := Phase.descending, sawDescending := true }

/-- Run the rep tracker over a sequence of candidate phase segments, starting
from the initial (Idle) state. -/
def trackerRun (segs : List PhaseSegment) : TrackerState :=
  segs.foldl trackerStep initTracker

/-- Number of `rep_completed` events the tracker emits on one step: one
exactly when the step completes a rep. -/
def trackerStepEvents (s : TrackerState) (seg : PhaseSegment) : Nat :=
  (trackerStep s seg).repCount - s.repCount

/-- Total number of `rep_completed` events emitted over a run. -/
def trackerRunEvents (segs : List PhaseSegment) : Nat :=
  (segs.foldl (fun acc seg => (trackerStep acc.1 seg, acc.2 + trackerStepEvents acc.1 seg))
    (initTracker, 0)).2

/-- **C1.** Rep-cycle detection is direction-order-agnostic: starting Idle,
one non-idle phase, then the other (either order), each held at least
`minPhaseDuration`, then a return to Idle, yields exactly one rep. -/
theorem rep_cycle_order_agnostic (p1 p2 : Phase) (t1 t2 t3 : ℚ)
    (h1 : p1 ≠ Phase.idle) (h2 : p2 ≠ Phase.idle) (h12 : p1 ≠ p2)
    (d1 : minPhaseDuration ≤ t1) (d2 : minPhaseDuration ≤ t2)
    (d3 : minPhaseDuration ≤ t3) :
    (trackerRun [⟨p1, t1⟩, ⟨p2, t2⟩, ⟨Phase.idle, t3⟩]).repCount = 1 := by
  have n1 := not_lt.mpr d1
  have n2 := not_lt.mpr d2
  have n3 := not_lt.mpr d3
  cases p1 <;> cases p2 <;>
    first
      | exact absurd rfl h1
      | exact absurd rfl h2
      | exact absurd rfl h12
      | simp [trackerRun, List.foldl, trackerStep, n1, n2, n3, initTracker]

/-- Witness for C1: both concrete orderings (Idle→Descending(0.2s)→
Ascending(0.2s)→Idle and Idle→Ascending(0.2s)→Descending(0.2s)→Idle) each
produce exactly 1 rep. -/
theorem rep_cycle_order_agnostic_witness :
    (trackerRun [⟨Phase.descending, 1/5⟩, ⟨Phase.ascending, 1/5⟩, ⟨Phase.idle, 1/5⟩]).repCount = 1
    ∧ (trackerRun [⟨Phase.ascending, 1/5⟩, ⟨Phase.descending, 1/5⟩, ⟨Phase.idle, 1/5⟩]).repCount = 1 :=
  ⟨rep_cycle_order_agnostic Phase.descending Phase.ascending (1/5) (1/5) (1/5)
      (by decide) (by decide) (by decide) (by norm_num [minPhaseDuration])
      (by norm_num [minPhaseDuration]) (by norm_num [minPhaseDuration]),
    rep_cycle_order_agnostic Phase.ascending Phase.descending (1/5) (1/5) (1/5)
      (by decide) (by decide) (by decide) (by norm_num [minPhaseDuration])
      (by norm_num [minPhaseDuration]) (by norm_num [minPhaseDuration])⟩

/-! ## Fatigue detector (modelled from the spec) -/

/-- Arithmetic mean of a list of rationals (sum divided by length). -/
def mean (l : List ℚ) : ℚ := l.sum / l.length

/-- The last `n` elements of a list. -/
def lastN (n : Nat) (l : List ℚ) : List ℚ := l.drop (l.length - n)

/-- Payload of a `fatigue_warning` event:
`{dropPercentage, currentVelocity, baselineVelocity}`. -/
structure FatigueWarning where
  dropPercentage : ℚ
  currentVelocity : ℚ
  baselineVelocity : ℚ
  deriving DecidableEq, Repr

/-- Modelled from the spec: per-set fatigue state
(`velocitytracker/backend/fatigue_detector.py` is not under the checked-in
sources). Holds the rep `avgVelocity` history of the active set, the optional
baseline, the alert level and the last computed drop percentage. -/
structure FatigueState where
  reps : List ℚ
  baselineVelocity : Option ℚ
  alertActive : Bool
  lastDropPercentage : ℚ
  deriving DecidableEq, Repr

/-- Fatigue state at the start of a set: no reps, no baseline, no alert. -/
def initFatigue : FatigueState :=
  { reps := [], baselineVelocity := none, alertActive := false, lastDropPercentage := 0 }

/-- Modelled from the spec: append one completed rep's `avgVelocity` to the
fatigue detector and return the new state together with the `fatigue_warning`
events emitted at this step. Until 3 reps exist nothing is computed; at the
third rep the baseline is set to the mean of the first 3; afterwards the drop
percentage against the trailing 3-rep mean is evaluated and a warning is
emitted on the inactive-to-active alert transition. -/
def fatigueAppend (s : FatigueState) (v : ℚ) : FatigueState × List FatigueWarning :=
  let reps := s.reps ++ [v]
  if reps.length < 3 then
    ({ s with reps := reps }, [])
  else if reps.length = 3 then
    ({ reps := reps, baselineVelocity := some (mean reps), alertActive := false,
       lastDropPercentage := 0 }, [])
  else
    match s.baselineVelocity with
    | none => ({ s with reps := reps }, [])
    | some b =>
        let smoothed := mean (lastN 3 reps)
        let drop := max 0 ((b - smoothed) / b * 100)
        let active : Bool := decide (11 ≤ drop)
        ({ reps := reps, baselineVelocity := some b, alertActive := active,
           lastDropPercentage := drop },
         if active && !s.alertActive then [⟨drop, smoothed, b⟩] else [])

/-- Run the fatigue detector over a set's rep velocities in order, collecting
all emitted `fatigue_warning` events. -/
def fatigueRun (vs : List ℚ) : FatigueState × List FatigueWarning :=
  vs.foldl (fun acc v => ((fatigueAppend acc.1 v).1, acc.2 ++ (fatigueAppend acc.1 v).2))
    (initFatigue, [])

theorem fatigueRun_concat (vs : List ℚ) (v : ℚ) :
    fatigueRun (vs ++ [v])
      = ((fatigueAppend (fatigueRun vs).1 v).1,
         (fatigueRun vs).2 ++ (fatigueAppend (fatigueRun vs).1 v).2) := by
  simp [fatigueRun, List.foldl_append]

theorem fatigueAppend_reps (s : FatigueState) (v : ℚ) :
    (fatigueAppend s v).1.reps = s.reps ++ [v] := by
  unfold fatigueAppend
  split <;>
    · dsimp only
      split
      · rfl
      · split <;> rfl

theorem fatigueRun_reps (vs : List ℚ) : (fatigueRun vs).1.reps = vs := by
  induction vs using List.reverseRecOn with
  | nil => rfl
  | append_singleton vs v ih => rw [fatigueRun_concat]; simp [fatigueAppend_reps, ih]

theorem fatigueRun_baseline (vs : List ℚ) :
    (fatigueRun vs).1.baselineVelocity
      = if 3 ≤ vs.length then some (mean (vs.take 3)) else none := by
  induction vs using List.reverseRecOn with
  | nil => rfl
  | append_singleton vs v ih =>
      have hreps := fatigueRun_reps vs
      rcases lt_trichotomy vs.length 2 with hlen | hlen | hlen
      · simp only [fatigueRun_concat, fatigueAppend, hreps, ih, List.length_append,
          List.length_singleton v]
        simp [show vs.length + 1 < 3 by omega, show ¬ 3 ≤ vs.length by omega,
          show ¬ 3 ≤ vs.length + 1 by omega]
      · have htake : (vs ++ [v]).take 3 = vs ++ [v] :=
          List.take_of_length_le (by simp [hlen])
        simp only [fatigueRun_concat, fatigueAppend, hreps, List.length_append,
          List.length_singleton v, htake]
        simp [show ¬ vs.length + 1 < 3 by omega, show vs.length + 1 = 3 by omega,
          show 3 ≤ vs.length + 1 by omega]
      · have htake : (vs ++ [v]).take 3 = vs.take 3 :=
          List.take_append_of_le_length (by omega)
        simp only [fatigueRun_concat, fatigueAppend, hreps, ih, List.length_append,
          List.length_singleton v, htake]
        simp [show ¬ vs.length + 1 < 3 by omega, show ¬ vs.length + 1 = 3 by omega,
          show 3 ≤ vs.length by omega, show 3 ≤ vs.length + 1 by omega]

theorem fatigueRun_short (vs : List ℚ) (h : vs.length < 3) :
    (fatigueRun vs).1.alertActive = false ∧ (fatigueRun vs).2 = [] := by
  induction vs using List.reverseRecOn with
  | nil => exact ⟨rfl, rfl⟩
  | append_singleton vs v ih =>
      rw [fatigueRun_concat]
      have hvs : vs.length < 3 := by simp at h; omega
      obtain ⟨ihA, ihE⟩ := ih hvs
      have hreps := fatigueRun_reps vs
      unfold fatigueAppend
      rw [hreps]
      have h1 : (vs ++ [v]).length < 3 := by simpa using h
      rw [if_pos h1]
      exact ⟨ihA, by simp [ihE]⟩

/-- **C2.** The fatigue baseline of a set is exactly the mean `avgVelocity`
of its first 3 reps, present as soon as (and only when) at least 3 reps
exist — so it is set once, right after the third rep, and never recomputed —
and while fewer than 3 reps exist there is no baseline, no active alert and
no emitted warning event. -/
theorem fatigue_baseline_first_three (vs : List ℚ) :
    ((fatigueRun vs).1.baselineVelocity
        = if 3 ≤ vs.length then some (mean (vs.take 3)) else none)
    ∧ (vs.length < 3 →
        (fatigueRun vs).1.baselineVelocity = none
        ∧ (fatigueRun vs).1.alertActive = false
        ∧ (fatigueRun vs).2 = []) := by
  refine ⟨fatigueRun_baseline vs, fun h => ⟨?_, (fatigueRun_short vs h).1, (fatigueRun_short vs h).2⟩⟩
  rw [fatigueRun_baseline vs, if_neg (by omega)]

/-- Witness for C2: reps with avgVelocity `[1.00, 0.95, 0.90]` yield
baseline `0.95`, and with only two reps appended there is no baseline, no
alert and no warning. -/
theorem fatigue_baseline_first_three_witness :
    (fatigueRun [1, 19/20, 9/10]).1.baselineVelocity = some (19/20)
    ∧ (fatigueRun [1, 19/20]).1.baselineVelocity = none
    ∧ (fatigueRun [1, 19/20]).1.alertActive = false
    ∧ (fatigueRun [1, 19/20]).2 = [] := by
  constructor
  · have h := (fatigue_baseline_first_three [1, 19/20, 9/10]).1
    rw [h, if_pos (by norm_num)]
    norm_num [mean]
  · exact (fatigue_baseline_first_three [1, 19/20]).2 (by norm_num)

theorem fatigueAppend_of_baseline (s : FatigueState) (v b : ℚ)
    (hb : s.baselineVelocity = some b) (hlen : 3 ≤ s.reps.length) :
    fatigueAppend s v =
      ({ reps := s.reps ++ [v], baselineVelocity := some b,
         alertActive := decide (11 ≤ max 0 ((b - mean (lastN 3 (s.reps ++ [v]))) / b * 100)),
         lastDropPercentage := max 0 ((b - mean (lastN 3 (s.reps ++ [v]))) / b * 100) },
       if decide (11 ≤ max 0 ((b - mean (lastN 3 (s.reps ++ [v]))) / b * 100)) && !s.alertActive
       then [{ dropPercentage := max 0 ((b - mean (lastN 3 (s.reps ++ [v]))) / b * 100),
               currentVelocity := mean (lastN 3 (s.reps ++ [v])),
               baselineVelocity := b }]
       else []) := by
  simp [fatigueAppend, hb, show ¬ s.reps.length + 1 < 3 by omega,
    show s.reps.length ≠ 2 by omega]

/-- **C3.** After the third rep, the drop percentage equals
`(baseline − trailing 3-rep mean) / baseline × 100` clamped to `≥ 0`, the
alert is active exactly when that value is `≥ 11`, and the append step emits
exactly one `fatigue_warning` event carrying
`{dropPercentage, currentVelocity, baselineVelocity}` precisely on the
inactive-to-active transition. -/
theorem fatigue_drop_alert (hist : List ℚ) (v : ℚ)
    (hlen : 3 ≤ hist.length) (_hpos : 0 < mean (hist.take 3)) :
    (fatigueRun (hist ++ [v])).1.lastDropPercentage
        = max 0 ((mean (hist.take 3) - mean (lastN 3 (hist ++ [v]))) / mean (hist.take 3) * 100)
    ∧ ((fatigueRun (hist ++ [v])).1.alertActive = true
        ↔ 11 ≤ max 0 ((mean (hist.take 3) - mean (lastN 3 (hist ++ [v]))) / mean (hist.take 3) * 100))
    ∧ (fatigueAppend (fatigueRun hist).1 v).2
        = (if 11 ≤ max 0 ((mean (hist.take 3) - mean (lastN 3 (hist ++ [v]))) / mean (hist.take 3) * 100)
              ∧ (fatigueRun hist).1.alertActive = false
           then [{ dropPercentage :=
                     max 0 ((mean (hist.take 3) - mean (lastN 3 (hist ++ [v]))) / mean (hist.take 3) * 100),
                   currentVelocity := mean (lastN 3 (hist ++ [v])),
                   baselineVelocity := mean (hist.take 3) }]
           else []) := by
  have hreps := fatigueRun_reps hist
  have hbase : (fatigueRun hist).1.baselineVelocity = some (mean (hist.take 3)) := by
    rw [fatigueRun_baseline, if_pos hlen]
  have hstep := fatigueAppend_of_baseline (fatigueRun hist).1 v (mean (hist.take 3))
    hbase (by rw [hreps]; exact hlen)
  rw [hreps] at hstep
  refine ⟨?_, ?_, ?_⟩
  · rw [fatigueRun_concat, hstep]
  · rw [fatigueRun_concat, hstep]
    simp
  · rw [hstep]
    by_cases hc : 11 ≤ max 0 ((mean (hist.take 3) - mean (lastN 3 (hist ++ [v]))) / mean (hist.take 3) * 100) <;>
      cases hprev : (fatigueRun hist).1.alertActive <;>
        simp [hc, hprev]

theorem fatigueRun_three_alert (a b c : ℚ) :
    (fatigueRun [a, b, c]).1.alertActive = false := rfl

/-- Witness for C3: baseline `0.95` (reps `[1.00, 0.95, 0.90]`) and a 4th rep
of `0.55` give a trailing mean of `0.80`, a drop of `300/19 ≈ 15.8 ≥ 11`, an
active alert and exactly one warning event. -/
theorem fatigue_drop_alert_witness :
    (fatigueRun ([1, 19/20, 9/10] ++ [11/20])).1.lastDropPercentage = 300/19
    ∧ (fatigueRun ([1, 19/20, 9/10] ++ [11/20])).1.alertActive = true
    ∧ (fatigueAppend (fatigueRun [1, 19/20, 9/10]).1 (11/20)).2
        = [{ dropPercentage := 300/19, currentVelocity := 4/5, baselineVelocity := 19/20 }] := by
  have e1 : mean (List.take 3 [(1:ℚ), 19/20, 9/10]) = 19/20 := by
    norm_num [mean]
  have e2 : mean (lastN 3 ([(1:ℚ), 19/20, 9/10] ++ [11/20])) = 4/5 := by
    norm_num [mean, lastN]
  have h := fatigue_drop_alert [1, 19/20, 9/10] (11/20) (by norm_num) (by rw [e1]; norm_num)
  rw [e1, e2] at h
  have e3 : max (0:ℚ) ((19/20 - 4/5) / (19/20) * 100) = 300/19 := by norm_num
  rw [e3] at h
  refine ⟨h.1, h.2.1.mpr (by norm_num), ?_⟩
  rw [h.2.2, if_pos ⟨by norm_num, fatigueRun_three_alert 1 (19/20) (9/10)⟩]

/-! ## Set sessions and the start_set command (modelled from the spec) -/

/-- JavaScript-style `trim`: the string's characters with leading and
trailing whitespace removed. -/
def trimChars (s : String) : List Char :=
  ((s.data.dropWhile Char.isWhitespace).reverse.dropWhile Char.isWhitespace).reverse

/-- JavaScript-style `trim` as a string. -/
def trimString (s : String) : String := String.mk (trimChars s)

/-- Whether a string is empty or whitespace-only (JS `!s.trim()`). -/
def isBlank (s : String) : Bool := (trimChars s).isEmpty

/-- A completed rep as appended to a `SetSession`. -/
structure RepRecord where
  repNumber : Nat
  avgVelocity : ℚ
  peakVelocity : ℚ
  durationSeconds : ℚ
  deriving DecidableEq, Repr

/-- Modelled from the spec: one exercise + load unit of work with its ordered
rep history (`velocitytracker/backend/session_manager.py` is not under the
checked-in sources). -/
structure SetSession where
  exerciseName : String
  weight : ℚ
  unit : String
  reps : List RepRecord
  ended : Bool
  deriving DecidableEq, Repr

/-- Modelled from the spec: the engine's session-lifecycle state — at most
one active `SetSession`, the finalized sessions handed to persistence, and
the per-set fatigue and tracker state. -/
structure EngineState where
  active : Option SetSession
  finalized : List SetSession
  fatigue : FatigueState
  tracker : TrackerState
  deriving DecidableEq, Repr

/-- Engine state before any command: no session, fresh detector and tracker. -/
def engineInit : EngineState :=
  { active := none, finalized := [], fatigue := initFatigue, tracker := initTracker }

/-- Modelled from the spec: the `start_set(exercise, weight, unit)` command
handler (the backend command interpreter is not under the checked-in
sources). An empty or whitespace-only exercise name is rejected with a
specific reason and no state change; otherwise any active session is
finalized (not dropped) and a fresh session, fatigue state and tracker state
begin. Returns the new engine state and the rejection reason, if any. -/
def applyStartSet (st : EngineState) (exercise : String) (weight : ℚ) (u : String) :
    EngineState × Option String :=
  if isBlank exercise then
    (st, some "start_set rejected: exercise name is empty")
  else
    ({ active := some { exerciseName := exercise, weight := weight, unit := u,
                        reps := [], ended := false },
       finalized := st.finalized ++ (match st.active with
         | some s => [{ s with ended := true }]
         | none => []),
       fatigue := initFatigue, tracker := initTracker }, none)

/-- **C4.** With a session active, a valid `start_set` is accepted, appends
exactly the prior session (reps intact, marked ended) to the finalized list,
and begins a new session with zero reps and no fatigue baseline. -/
theorem start_set_finalizes_prior (st : EngineState) (s : SetSession)
    (ex : String) (w : ℚ) (u : String)
    (hact : st.active = some s) (hex : isBlank ex = false) :
    (applyStartSet st ex w u).2 = none
    ∧ (applyStartSet st ex w u).1.finalized = st.finalized ++ [{ s with ended := true }]
    ∧ ({ s with ended := true } : SetSession).reps = s.reps
    ∧ (applyStartSet st ex w u).1.active
        = some { exerciseName := ex, weight := w, unit := u, reps := [], ended := false }
    ∧ (applyStartSet st ex w u).1.fatigue.baselineVelocity = none := by
  simp [applyStartSet, hex, hact, initFatigue]

/-- An engine state with one active session holding one completed rep, used
to exercise the `start_set` theorems on concrete input. -/
def engineWithSet : EngineState :=
  { active := some { exerciseName := "Bench", weight := 135, unit := "lbs",
                     reps := [⟨1, 1, 3/2, 2⟩], ended := false },
    finalized := [], fatigue := initFatigue, tracker := initTracker }

/-- Witness for C4: starting `"Squat"` while the `"Bench"` session is active
finalizes exactly the bench session with its rep intact and opens an empty
squat session with no baseline. -/
theorem start_set_finalizes_prior_witness :
    (applyStartSet engineWithSet "Squat" 225 "lbs").2 = none
    ∧ (applyStartSet engineWithSet "Squat" 225 "lbs").1.finalized
        = [{ exerciseName := "Bench", weight := 135, unit := "lbs",
             reps := [⟨1, 1, 3/2, 2⟩], ended := true }]
    ∧ (applyStartSet engineWithSet "Squat" 225 "lbs").1.active
        = some { exerciseName := "Squat", weight := 225, unit := "lbs",
                 reps := [], ended := false }
    ∧ (applyStartSet engineWithSet "Squat" 225 "lbs").1.fatigue.baselineVelocity = none := by
  have h := start_set_finalizes_prior engineWithSet
    { exerciseName := "Bench", weight := 135, unit := "lbs",
      reps := [⟨1, 1, 3/2, 2⟩], ended := false }
    "Squat" 225 "lbs" rfl (by decide)
  exact ⟨h.1, by simpa [engineWithSet] using h.2.1, h.2.2.2.1, h.2.2.2.2⟩

/-- **C7.** A `start_set` whose exercise name is empty or whitespace-only is
rejected synchronously with a specific reason and mutates no state: the
engine state component of the result is exactly the input state. -/
theorem start_set_blank_rejected (st : EngineState) (ex : String) (w : ℚ) (u : String)
    (hex : isBlank ex = true) :
    applyStartSet st ex w u = (st, some "start_set rejected: exercise name is empty") := by
  simp [applyStartSet, hex]

/-- Witness for C7: a whitespace-only exercise name on the initial engine
state is rejected with the reason string and the state is unchanged. -/
theorem start_set_blank_rejected_witness :
    applyStartSet engineInit "   " 225 "lbs"
      = (engineInit, some "start_set rejected: exercise name is empty") :=
  start_set_blank_rejected engineInit "   " 225 "lbs" (by decide)

/-! ## Frontend: `VelocityView.jsx`

Embedded from the source. React state becomes an explicit record; the
`setTimeout` auto-end timer becomes an optional deadline (in milliseconds)
that `advanceTo` may fire; the asynchronous persistence of `handleEndSet`
becomes a boolean outcome (`saveOk`) of the atomic save transaction. -/

/-- One entry of the `repDetails` array kept by `VelocityView`. -/
structure RepDetail where
  repNumber : Nat
  avgVelocity : ℚ
  peakVelocity : ℚ
  duration : ℚ
  deriving DecidableEq, Repr

/-- A `rep_completed` WebSocket message as consumed by `ws.onmessage`.
Fields are in the engine's units (velocities in mm/s). -/
structure RepMsg where
  rep_number : Nat
  max_velocity : ℚ
  avg_velocity : ℚ
  duration : ℚ
  deriving DecidableEq, Repr

/-- The `lastRep` display record built in the `rep_completed` handler. -/
structure LastRep where
  number : Nat
  maxVelocity : ℚ
  avgVelocity : ℚ
  duration : ℚ
  deriving DecidableEq, Repr

/-- A set as logged to the database by `handleEndSet` (`addSet` call). -/
structure LoggedSet where
  exercise : String
  weight : ℚ
  reps : Nat
  avgVelocity : Option ℚ
  repDetails : List RepDetail
  deriving DecidableEq, Repr

/-- The `VelocityView` component state relevant to set tracking: the React
state hooks, the auto-end timer deadline (ms), and the sets persisted so
far. `AUTO_END_DELAY = 5000` ms. -/
structure ViewState where
  isTracking : Bool
  repCount : Nat
  repDetails : List RepDetail
  lastRep : Option LastRep
  peakVelocity : ℚ
  errorMsg : Option String
  pendingTimer : Option ℚ
  loggedSets : List LoggedSet
  exerciseName : String
  weight : ℚ
  deriving DecidableEq, Repr

/-- `AUTO_END_DELAY = 5000` (milliseconds). -/
def AUTO_END_DELAY : ℚ := 5000

/-- Initial `VelocityView` state. -/
def viewInit : ViewState :=
  { isTracking := false, repCount := 0, repDetails := [], lastRep := none,
    peakVelocity := 0, errorMsg := none, pendingTimer := none, loggedSets := [],
    exerciseName := "", weight := 0 }

/-- The `rep_completed` branch of `ws.onmessage`, including the auto-end
effect that re-arms the timer when `repDetails.length` changes (`now` is the
arrival time in ms). Velocities are converted mm/s → m/s by dividing by
1000; `duration` is stored as received (`data.duration || 0` equals
`data.duration` on rationals since `0 || 0 = 0`); a message whose
`rep_number` is already present leaves `repDetails` unchanged; `data.max_velocity`
and `data.avg_velocity` equal to `0` are falsy, as in JS. -/
def onRepCompleted (s : ViewState) (m : RepMsg) (now : ℚ) : ViewState :=
  let repData : LastRep :=
    { number := m.rep_number, maxVelocity := m.max_velocity / 1000,
      avgVelocity := m.avg_velocity / 1000, duration := m.duration }
  let newDetail : RepDetail :=
    { repNumber := m.rep_number, avgVelocity := m.avg_velocity / 1000,
      peakVelocity := (if m.max_velocity = 0 then m.avg_velocity else m.max_velocity) / 1000,
      duration := m.duration }
  let s1 := { s with lastRep := some repData }
  let s2 :=
    if m.max_velocity ≠ 0 then
      { s1 with peakVelocity := max s1.peakVelocity (m.max_velocity / 1000) }
    else s1
  let s3 :=
    if m.avg_velocity ≠ 0 then
      if s2.repDetails.any (fun r => r.repNumber = m.rep_number) then s2
      else { s2 with repDetails := s2.repDetails ++ [newDetail] }
    else s2
  if s3.repDetails.length = s.repDetails.length then s3
  else
    { s3 with pendingTimer :=
        if s3.isTracking && s3.repDetails.length != 0 then some (now + AUTO_END_DELAY)
        else none }

/-- `handleEndSet`: clears the timer; if not tracking or no reps, just stops
tracking; otherwise attempts the save transaction (`createWorkout` …
`addSet`), which either succeeds (`saveOk = true`: the set is appended to the
database and tracking state resets) or throws (`saveOk = false`: an
actionable error message is set and the tracking state is left untouched so
the user can retry). -/
def handleEndSet (s : ViewState) (saveOk : Bool) : ViewState :=
  let actualReps := if s.repDetails.length ≠ 0 then s.repDetails.length else s.repCount
  let avgVel : Option ℚ :=
    if s.repDetails.length ≠ 0 then
      some ((s.repDetails.map RepDetail.avgVelocity).sum / s.repDetails.length)
    else none
  let savedSet : LoggedSet :=
    { exercise := trimString s.exerciseName, weight := s.weight, reps := actualReps,
      avgVelocity := avgVel, repDetails := s.repDetails }
  if s.isTracking = false ∨ actualReps = 0 then
    { s with pendingTimer := none, isTracking := false, repDetails := [] }
  else
    if saveOk then
      { s with
        pendingTimer := none, loggedSets := s.loggedSets ++ [savedSet],
        isTracking := false, repCount := 0, repDetails := [], lastRep := none,
        peakVelocity := 0 }
    else
      { s with pendingTimer := none, errorMsg := some "Failed to log set. Tap to retry." }

/-- The error banner's click handler: clear the error, then retry
`handleEndSet`. -/
def retryEndSet (s : ViewState) (saveOk : Bool) : ViewState :=
  handleEndSet { s with errorMsg := none } saveOk

/-- The auto-end timer callback: fires only if still tracking with at least
one rep, in which case it runs `handleEndSet`. -/
def fireAutoEnd (s : ViewState) (saveOk : Bool) : ViewState :=
  if s.isTracking && s.repDetails.length != 0 then handleEndSet s saveOk
  else { s with pendingTimer := none }

/-- Let wall-clock time advance to `t` ms with no intervening WebSocket
message: the pending auto-end timer fires iff its deadline has passed. -/
def advanceTo (s : ViewState) (t : ℚ) (saveOk : Bool) : ViewState :=
  match s.pendingTimer with
  | some d => if d ≤ t then fireAutoEnd { s with pendingTimer := none } saveOk else s
  | none => s

/-- `handleStartSet`: a blank exercise name or empty weight input aborts
(the Start Set button is also disabled then); otherwise the `start_set`
command is sent and the local tracking state resets. The weight input is an
optional rational, `none` when the field is empty. -/
def handleStartSetView (s : ViewState) (ex : String) (w : Option ℚ) : ViewState :=
  if isBlank ex || w.isNone then s
  else
    { s with
      isTracking := true, repCount := 0, lastRep := none,
      peakVelocity := 0, repDetails := [], pendingTimer := none,
      exerciseName := ex, weight := w.getD 0 }

/-- **C6.** When the save transaction of `handleEndSet` fails, the failure
surfaces as the actionable retry notice, nothing is persisted, and the rep
history and tracking state are unchanged, so a subsequent successful retry
(error banner click) logs the very same set exactly once. -/
theorem failed_save_retryable (s : ViewState)
    (ht : s.isTracking = true) (hr : s.repDetails ≠ []) :
    (handleEndSet s false).errorMsg = some "Failed to log set. Tap to retry."
    ∧ (handleEndSet s false).repDetails = s.repDetails
    ∧ (handleEndSet s false).isTracking = true
    ∧ (handleEndSet s false).repCount = s.repCount
    ∧ (handleEndSet s false).loggedSets = s.loggedSets
    ∧ (retryEndSet (handleEndSet s false) true).loggedSets
        = s.loggedSets ++
          [{ exercise := trimString s.exerciseName, weight := s.weight,
             reps := s.repDetails.length,
             avgVelocity :=
               some ((s.repDetails.map RepDetail.avgVelocity).sum / s.repDetails.length),
             repDetails := s.repDetails }] := by
  have hlen : s.repDetails.length ≠ 0 := by
    simpa [List.length_eq_zero] using hr
  simp [handleEndSet, retryEndSet, ht, hlen]

/-- A `VelocityView` state mid-set: tracking a squat set with two completed
reps and an armed auto-end timer, used to exercise the frontend theorems on
concrete input. -/
def trackingView : ViewState :=
  { isTracking := true, repCount := 2,
    repDetails := [⟨1, 1, 3/2, 2⟩, ⟨2, 9/10, 7/5, 2⟩], lastRep := none,
    peakVelocity := 3/2, errorMsg := none, pendingTimer := some 7000,
    loggedSets := [], exerciseName := "Squat", weight := 225 }

/-- Witness for C6: on the concrete mid-set state, a failed save keeps both
reps and tracking alive behind a retry notice, and the successful retry logs
one squat set with average velocity `0.95`. -/
theorem failed_save_retryable_witness :
    (handleEndSet trackingView false).errorMsg = some "Failed to log set. Tap to retry."
    ∧ (handleEndSet trackingView false).repDetails = [⟨1, 1, 3/2, 2⟩, ⟨2, 9/10, 7/5, 2⟩]
    ∧ (handleEndSet trackingView false).isTracking = true
    ∧ (handleEndSet trackingView false).loggedSets = []
    ∧ (retryEndSet (handleEndSet trackingView false) true).loggedSets
        = [{ exercise := "Squat", weight := 225, reps := 2,
             avgVelocity := some (19/20),
             repDetails := [⟨1, 1, 3/2, 2⟩, ⟨2, 9/10, 7/5, 2⟩] }] := by
  have h := failed_save_retryable trackingView rfl (by decide)
  refine ⟨h.1, h.2.1, h.2.2.1, h.2.2.2.2.1, ?_⟩
  rw [h.2.2.2.2.2]
  norm_num [trackingView]
  decide

theorem onRepCompleted_loggedSets (s : ViewState) (m : RepMsg) (now : ℚ) :
    (onRepCompleted s m now).loggedSets = s.loggedSets := by
  unfold onRepCompleted
  dsimp only
  repeat' split
  all_goals rfl

theorem onRepCompleted_dup (s : ViewState) (m : RepMsg) (now : ℚ)
    (hdup : (s.repDetails.any fun r => r.repNumber = m.rep_number) = true) :
    (onRepCompleted s m now).repDetails = s.repDetails := by
  unfold onRepCompleted
  dsimp only
  repeat' split
  all_goals simp_all

theorem onRepCompleted_noavg (s : ViewState) (m : RepMsg) (now : ℚ)
    (havg : m.avg_velocity = 0) :
    (onRepCompleted s m now).repDetails = s.repDetails := by
  unfold onRepCompleted
  dsimp only
  repeat' split
  all_goals simp_all

theorem onRepCompleted_new (s : ViewState) (m : RepMsg) (now : ℚ)
    (havg : m.avg_velocity ≠ 0)
    (hany : (s.repDetails.any fun r => r.repNumber = m.rep_number) = false) :
    (onRepCompleted s m now).repDetails
      = s.repDetails ++
        [{ repNumber := m.rep_number, avgVelocity := m.avg_velocity / 1000,
           peakVelocity := (if m.max_velocity = 0 then m.avg_velocity else m.max_velocity) / 1000,
           duration := m.duration }] := by
  unfold onRepCompleted
  dsimp only
  repeat' split
  all_goals simp_all

theorem onRepCompleted_nodup (s : ViewState) (m : RepMsg) (now : ℚ)
    (h : (s.repDetails.map RepDetail.repNumber).Nodup) :
    ((onRepCompleted s m now).repDetails.map RepDetail.repNumber).Nodup := by
  by_cases hdup : (s.repDetails.any fun r => r.repNumber = m.rep_number) = true
  · rw [onRepCompleted_dup s m now hdup]; exact h
  · have hany := eq_false_of_ne_true hdup
    by_cases havg : m.avg_velocity = 0
    · rw [onRepCompleted_noavg s m now havg]; exact h
    · rw [onRepCompleted_new s m now havg hany]
      have hmem : m.rep_number ∉ s.repDetails.map RepDetail.repNumber := by
        intro hmm
        obtain ⟨r, hr, hrn⟩ := List.mem_map.mp hmm
        have h2 := List.any_eq_false.mp hany r hr
        simp only [decide_eq_true_eq] at h2
        exact h2 hrn
      rw [List.map_append]
      exact List.Nodup.append h (List.nodup_singleton _)
        (by simpa [List.disjoint_singleton] using hmem)

/-- **C9.** The per-set rep list is deduplicated by rep number: a
`rep_completed` message whose `rep_number` is already present leaves
`repDetails` unchanged, distinctness of the stored rep numbers is preserved
by every message, and hence over any incoming message sequence `repDetails`
never holds two entries with the same `repNumber`. -/
theorem repDetails_dedup (s : ViewState) (m : RepMsg) (now : ℚ)
    (ms : List (RepMsg × ℚ)) :
    ((s.repDetails.any fun r => r.repNumber = m.rep_number) = true →
        (onRepCompleted s m now).repDetails = s.repDetails)
    ∧ ((s.repDetails.map RepDetail.repNumber).Nodup →
        ((onRepCompleted s m now).repDetails.map RepDetail.repNumber).Nodup)
    ∧ (((ms.foldl (fun st p => onRepCompleted st p.1 p.2) viewInit).repDetails.map
          RepDetail.repNumber).Nodup) := by
  refine ⟨onRepCompleted_dup s m now, onRepCompleted_nodup s m now, ?_⟩
  induction ms using List.reverseRecOn with
  | nil => simp [viewInit]
  | append_singleton ms p ih =>
      rw [List.foldl_append, List.foldl_cons, List.foldl_nil]
      exact onRepCompleted_nodup _ p.1 p.2 ih

/-- Witness for C9: on the concrete mid-set state, a duplicate of rep 2
leaves the two stored reps unchanged and their numbers distinct. -/
theorem repDetails_dedup_witness :
    (onRepCompleted trackingView ⟨2, 1400, 900, 2⟩ 9000).repDetails
        = [⟨1, 1, 3/2, 2⟩, ⟨2, 9/10, 7/5, 2⟩]
    ∧ ((onRepCompleted trackingView ⟨2, 1400, 900, 2⟩ 9000).repDetails.map
        RepDetail.repNumber).Nodup := by
  have h := repDetails_dedup trackingView ⟨2, 1400, 900, 2⟩ 9000 []
  exact ⟨h.1 (by decide), h.2.1 (by decide)⟩

theorem trackerStep_mono (s : TrackerState) (seg : PhaseSegment) :
    s.repCount ≤ (trackerStep s seg).repCount := by
  unfold trackerStep
  repeat' split
  all_goals simp

theorem trackerFold_mono (segs : List PhaseSegment) (s : TrackerState) :
    s.repCount ≤ (segs.foldl trackerStep s).repCount := by
  induction segs generalizing s with
  | nil => simp
  | cons seg rest ih =>
      rw [List.foldl_cons]
      exact le_trans (trackerStep_mono s seg) (ih (trackerStep s seg))

theorem trackerEvents_fold (segs : List PhaseSegment) (s : TrackerState) (k : Nat) :
    (segs.foldl (fun acc seg => (trackerStep acc.1 seg, acc.2 + trackerStepEvents acc.1 seg))
        (s, k)).2
      = k + ((segs.foldl trackerStep s).repCount - s.repCount) := by
  induction segs generalizing s k with
  | nil => simp
  | cons seg rest ih =>
      simp only [List.foldl_cons]
      rw [ih]
      have h1 := trackerStep_mono s seg
      have h2 := trackerFold_mono rest (trackerStep s seg)
      unfold trackerStepEvents
      omega

theorem onRepCompleted_lastRep (s : ViewState) (m : RepMsg) (now : ℚ) :
    (onRepCompleted s m now).lastRep
      = some { number := m.rep_number, maxVelocity := m.max_velocity / 1000,
               avgVelocity := m.avg_velocity / 1000, duration := m.duration } := by
  unfold onRepCompleted
  dsimp only
  repeat' split
  all_goals rfl

/-- **C8.** `rep_completed` events are published exactly on rep completion
(over any tracker run the emitted event count equals the number of completed
reps), and the downstream consumer does the unit conversion: the frontend
stores `avg_velocity` and `max_velocity` divided by exactly 1000 (mm/s to
m/s) in both the `lastRep` display record and the appended `repDetails`
entry, while `duration` is taken unconverted. -/
theorem rep_completed_conversion (s : ViewState) (m : RepMsg) (now : ℚ)
    (havg : m.avg_velocity ≠ 0)
    (hnew : (s.repDetails.any fun r => r.repNumber = m.rep_number) = false)
    (segs : List PhaseSegment) :
    (onRepCompleted s m now).lastRep
        = some { number := m.rep_number, maxVelocity := m.max_velocity / 1000,
                 avgVelocity := m.avg_velocity / 1000, duration := m.duration }
    ∧ (onRepCompleted s m now).repDetails
        = s.repDetails ++
          [{ repNumber := m.rep_number, avgVelocity := m.avg_velocity / 1000,
             peakVelocity := (if m.max_velocity = 0 then m.avg_velocity else m.max_velocity) / 1000,
             duration := m.duration }]
    ∧ trackerRunEvents segs = (trackerRun segs).repCount := by
  refine ⟨onRepCompleted_lastRep s m now, onRepCompleted_new s m now havg hnew, ?_⟩
  unfold trackerRunEvents trackerRun
  rw [trackerEvents_fold]
  simp [initTracker]

/-- Witness for C8: a `rep_completed` message with `max_velocity = 1500`,
`avg_velocity = 1200` (mm/s) and `duration = 2.34` is displayed and stored as
`1.5` and `1.2` m/s with the duration unchanged, and one full rep cycle emits
exactly one event. -/
theorem rep_completed_conversion_witness :
    (onRepCompleted viewInit ⟨5, 1500, 1200, 117/50⟩ 0).lastRep
        = some { number := 5, maxVelocity := 3/2, avgVelocity := 6/5, duration := 117/50 }
    ∧ (onRepCompleted viewInit ⟨5, 1500, 1200, 117/50⟩ 0).repDetails
        = [{ repNumber := 5, avgVelocity := 6/5, peakVelocity := 3/2, duration := 117/50 }]
    ∧ trackerRunEvents [⟨Phase.descending, 1/5⟩, ⟨Phase.ascending, 1/5⟩, ⟨Phase.idle, 1/5⟩] = 1 := by
  have h := rep_completed_conversion viewInit ⟨5, 1500, 1200, 117/50⟩ 0 (by norm_num) (by decide)
    [⟨Phase.descending, 1/5⟩, ⟨Phase.ascending, 1/5⟩, ⟨Phase.idle, 1/5⟩]
  refine ⟨?_, ?_, ?_⟩
  · rw [h.1]; norm_num
  · rw [h.2.1]; norm_num [viewInit]
  · rw [h.2.2]
    norm_num [trackerRun, List.foldl, trackerStep, initTracker, minPhaseDuration]
    decide

theorem onRepCompleted_arm (s : ViewState) (m : RepMsg) (now : ℚ)
    (havg : m.avg_velocity ≠ 0)
    (hany : (s.repDetails.any fun r => r.repNumber = m.rep_number) = false)
    (ht : s.isTracking = true) :
    (onRepCompleted s m now).pendingTimer = some (now + AUTO_END_DELAY) := by
  unfold onRepCompleted
  dsimp only
  repeat' split
  all_goals simp_all

/-- Counterexample to C5 as stated: an active SetSession with no completed
reps is never auto-finalized, no matter how long it stays idle — here the
set starts, 1,000,000 ms ≫ 5000 ms pass in Idle, and the session is still
active with nothing logged, because the frontend arms the auto-end timer
only once `repDetails` is non-empty. -/
theorem auto_end_counterexample :
    (handleStartSetView viewInit "Squat" (some 225)).pendingTimer = none
    ∧ (advanceTo (handleStartSetView viewInit "Squat" (some 225)) 1000000 true).isTracking = true
    ∧ (advanceTo (handleStartSetView viewInit "Squat" (some 225)) 1000000 true).loggedSets = [] := by
  refine ⟨?_, ?_, ?_⟩ <;>
    simp [handleStartSetView, advanceTo, viewInit, show isBlank "Squat" = false from by decide]

/-- **C5 (amended).** Auto-end fires exactly once, measured from the last
completed rep: once the active set has at least one rep and its timer is
armed for deadline `d`, letting time pass the deadline with no new rep
finalizes the session exactly once (exactly one set logged, tracking stops,
timer cleared), any later time passage fires nothing further, and a new rep
message arriving before the deadline re-arms the timer to 5 s after that rep
while finalizing nothing; a rep-less active session is never auto-finalized. -/
theorem auto_end_once (s : ViewState) (d t t2 : ℚ)
    (ht : s.isTracking = true) (hr : s.repDetails ≠ [])
    (htimer : s.pendingTimer = some d) (hd : d ≤ t) :
    (advanceTo s t true).loggedSets.length = s.loggedSets.length + 1
    ∧ (advanceTo s t true).isTracking = false
    ∧ (advanceTo s t true).pendingTimer = none
    ∧ advanceTo (advanceTo s t true) t2 true = advanceTo s t true
    ∧ (∀ (m : RepMsg) (now : ℚ),
        (s.repDetails.any fun r => r.repNumber = m.rep_number) = false →
        m.avg_velocity ≠ 0 → now < d →
        (onRepCompleted s m now).pendingTimer = some (now + AUTO_END_DELAY)
        ∧ (onRepCompleted s m now).loggedSets = s.loggedSets) := by
  have hlen : s.repDetails.length ≠ 0 := by
    simpa [List.length_eq_zero] using hr
  have hadv : advanceTo s t true = handleEndSet { s with pendingTimer := none } true := by
    simp [advanceTo, htimer, hd, fireAutoEnd, ht, hlen]
  have hnone : (handleEndSet { s with pendingTimer := none } true).pendingTimer = none := by
    simp [handleEndSet, ht, hlen]
  refine ⟨?_, ?_, ?_, ?_, ?_⟩
  · rw [hadv]; simp [handleEndSet, ht, hlen]
  · rw [hadv]; simp [handleEndSet, ht, hlen]
  · rw [hadv]; exact hnone
  · rw [hadv]
    unfold advanceTo
    rw [hnone]
  · intro m now hany hmavg _hnow
    exact ⟨onRepCompleted_arm s m now hmavg hany ht, onRepCompleted_loggedSets s m now⟩

/-- Witness for the amended C5: on the concrete mid-set state (two reps,
timer armed for 7000 ms), passing the deadline logs exactly one set and
stops tracking, a much later advance changes nothing, and a third rep at
4000 ms would have re-armed the timer to 9000 ms without logging anything. -/
theorem auto_end_once_witness :
    (advanceTo trackingView 7000 true).loggedSets.length = 1
    ∧ (advanceTo trackingView 7000 true).isTracking = false
    ∧ (advanceTo trackingView 7000 true).pendingTimer = none
    ∧ advanceTo (advanceTo trackingView 7000 true) 1000000 true = advanceTo trackingView 7000 true
    ∧ (onRepCompleted trackingView ⟨3, 1300, 850, 2⟩ 4000).pendingTimer = some 9000
    ∧ (onRepCompleted trackingView ⟨3, 1300, 850, 2⟩ 4000).loggedSets = [] := by
  have h := auto_end_once trackingView 7000 7000 1000000 rfl (by decide) rfl (by norm_num)
  have h5 := h.2.2.2.2 ⟨3, 1300, 850, 2⟩ 4000 (by decide) (by norm_num) (by norm_num)
  refine ⟨by rw [h.1]; rfl, h.2.1, h.2.2.1, h.2.2.2.1, ?_, ?_⟩
  · rw [h5.1]; norm_num [AUTO_END_DELAY]
  · rw [h5.2]; rfl

/-! ## Frontend: `db.js` workout table -/

/-- A row of the Dexie `workouts` table (`++id, date`). -/
structure WorkoutRow where
  id : Nat
  date : String
  deriving DecidableEq, Repr

/-- The `workouts` table: its rows in insertion order and the auto-increment
counter for `++id`. -/
structure WorkoutDB where
  rows : List WorkoutRow
  nextId : Nat
  deriving DecidableEq, Repr

/-- `db.js createWorkout(date)`: if a workout with this date already exists
(`where('date').equals(date).first()`), return its id and leave the table
unchanged; otherwise add a row with the next auto-increment id and return
that id. -/
def createWorkout (db : WorkoutDB) (date : String) : Nat × WorkoutDB :=
  match db.rows.find? (fun w => w.date == date) with
  | some w => (w.id, db)
  | none =>
      (db.nextId,
       { rows := db.rows ++ [{ id := db.nextId, date := date }], nextId := db.nextId + 1 })

theorem find?_append_of_none {α : Type} (p : α → Bool) (l1 l2 : List α)
    (h : l1.find? p = none) : (l1 ++ l2).find? p = l2.find? p := by
  induction l1 with
  | nil => simp
  | cons a l ih =>
      cases hpa : p a with
      | true => simp [List.find?_cons, hpa] at h
      | false =>
          simp only [List.cons_append, List.find?_cons, hpa, cond_false] at h ⊢
          exact ih h

/-- **C10.** `createWorkout` is idempotent per date: if a workout with the
date exists it returns that workout's id and inserts no row, and calling it
twice in a row has exactly the same database effect (and result) as calling
it once. -/
theorem createWorkout_idempotent (db : WorkoutDB) (date : String) :
    (∀ w, db.rows.find? (fun r => r.date == date) = some w →
        createWorkout db date = (w.id, db))
    ∧ createWorkout (createWorkout db date).2 date = createWorkout db date := by
  constructor
  · intro w h
    simp [createWorkout, h]
  · cases hfind : db.rows.find? (fun r => r.date == date) with
    | some w => simp [createWorkout, hfind]
    | none =>
        have h2 : ((db.rows ++ [({ id := db.nextId, date := date } : WorkoutRow)]).find?
            (fun r => r.date == date)) = some { id := db.nextId, date := date } := by
          rw [find?_append_of_none _ _ _ hfind]
          simp [List.find?_cons]
        simp [createWorkout, hfind, h2]

/-- Witness for C10: with a table already holding `2025-02-04` as workout 1,
`createWorkout "2025-02-04"` returns id 1 and changes nothing, and on an
empty table two consecutive calls insert exactly one row. -/
theorem createWorkout_idempotent_witness :
    createWorkout { rows := [{ id := 1, date := "2025-02-04" }], nextId := 2 } "2025-02-04"
      = (1, { rows := [{ id := 1, date := "2025-02-04" }], nextId := 2 })
    ∧ createWorkout (createWorkout { rows := [], nextId := 1 } "2025-02-04").2 "2025-02-04"
      = createWorkout { rows := [], nextId := 1 } "2025-02-04" := by
  constructor
  · exact (createWorkout_idempotent { rows := [{ id := 1, date := "2025-02-04" }], nextId := 2 }
      "2025-02-04").1 { id := 1, date := "2025-02-04" } (by decide)
  · exact (createWorkout_idempotent { rows := [], nextId := 1 } "2025-02-04").2

end VeloLift
